import Mathlib

/-!
Verification of the ecomax360 protocol core against its specification.

The development shallowly embeds the frame codec (`trame.py`), the payload
decoder (`utils.py` / `api.py`), the retry loops of the request/response
engine (`api.py`, `api/client.py`, `communication.py`) and the parameter
tables (`parameters.py`, `api/parameters.py`).

Conventions:
* a byte is a `Nat` (kept below 256 by construction of the source data);
* a Python hex string (as produced by `bytes.hex()` and consumed by
  `bytes.fromhex`) is a list of hex digits, each a `Nat` below 16;
* Python functions that can raise return `Except PyExc`;
* engine operations take the transport receive stream as a function from
  the attempt number to the received data, and return the outcome paired
  with the number of `sendall` calls performed.
-/

namespace Ecomax

/-- One shift step of the inner loop of `Trame.calculate_crc`: shift the
16-bit accumulator left, xor the polynomial 0x1021 when the top bit was
set, and mask back to 16 bits. -/
def crcRound (crc : Nat) : Nat :=
  if crc &&& 0x8000 ≠ 0 then ((crc <<< 1) ^^^ 0x1021) % 65536
  else (crc <<< 1) % 65536

/-- Processing of one input byte by `Trame.calculate_crc`: xor the byte
into the high half of the accumulator, then run eight `crcRound` steps. -/
def crcByteStep (crc b : Nat) : Nat :=
  crcRound (crcRound (crcRound (crcRound
    (crcRound (crcRound (crcRound (crcRound (crc ^^^ (b <<< 8)))))))))

/-- CRC-16/CCITT-XModem of a byte list, as computed by
`Trame.calculate_crc`: initial value 0x0000, each byte processed MSB
first through eight shift/xor rounds. -/
def calculate_crc (data : List Nat) : Nat :=
  data.foldl crcByteStep 0

/-- The two length bytes produced by `int16_to_hex` (little endian,
signed 16-bit) for the nonnegative totals produced by
`Trame.calculate_length`; `none` models the `OverflowError` raised by
`int.to_bytes(2, "little", signed=True)` past 32767. -/
def int16le (v : Nat) : Option (List Nat) :=
  if v ≤ 32767 then some [v % 256, v / 256] else none

/-- `Trame.build` at byte level: the frame is the start byte 0x68, the
two length bytes of `Trame.calculate_length` (2 + 2 + 1 + payload size,
little endian), the source address, the destination address, the
function code, the data payload, the CRC of everything after the start
byte (big endian) and the end byte 0x16. -/
def buildFrame (sa0 sa1 da0 da1 f : Nat) (data : List Nat) : Option (List Nat) :=
  match int16le (2 + 2 + 1 + data.length) with
  | none => none
  | some lenBytes =>
    let mid := lenBytes ++ [sa0, sa1, da0, da1, f] ++ data
    let crc := calculate_crc mid
    some (0x68 :: (mid ++ [crc / 256, crc % 256, 0x16]))

/-- A concrete frame built from source 0100, destination 6400, function
0x40 and payload 647800: used to witness `build_frame_wellformed`. -/
def demoFrame : List Nat :=
  (buildFrame 0x01 0x00 0x64 0x00 0x40 [0x64, 0x78, 0x00]).getD []

/-- One pass of the scan performed by `re.findall(r'68.*?16', frames_hex)`
over a hex-digit list. While the accumulator is `none` the scan looks for
the digit pair 6,8; while it is `some c` a candidate `c` begun at the
last 6,8 pair grows until the first closing digit pair 1,6. Matches are
non-overlapping and the scan resumes after each closing pair, exactly as
the regex engine does. -/
def scanFrames : List Nat → Option (List Nat) → List (List Nat)
  | [], _ => []
  | [_], _ => []
  | a :: b :: rest, none =>
    if a = 6 ∧ b = 8 then scanFrames rest (some [6, 8])
    else scanFrames (b :: rest) none
  | a :: b :: rest, some acc =>
    if a = 1 ∧ b = 6 then (acc ++ [1, 6]) :: scanFrames rest none
    else scanFrames (b :: rest) (some (acc ++ [a]))

/-- The frame-splitting step applied to a received hex string:
`re.findall(r'68.*?16', frames_hex)` as used by `async_request`,
`listen_frame` and `Communication.request`. -/
def splitFrames (s : List Nat) : List (List Nat) :=
  scanFrames s none

/-- Shape of every candidate returned by the frame split: it starts with
the digit pair 6,8, ends with the digit pair 1,6, and that closing pair
is the first one after the opening marker (the non-greedy match). -/
def GoodCandidate (u : List Nat) : Prop :=
  u[0]? = some 6 ∧ u[1]? = some 8 ∧
  u[u.length - 2]? = some 1 ∧ u[u.length - 1]? = some 6 ∧
  ∀ k, u[k]? = some 1 → u[k + 1]? = some 6 → k = u.length - 2

/-- Invariant of an open candidate during the scan: it starts with the
6,8 pair, contains no closing 1,6 pair yet, and its last digit does not
form a 1,6 pair with the next input digit. -/
def OpenScan (l acc : List Nat) : Prop :=
  acc[0]? = some 6 ∧ acc[1]? = some 8 ∧
  (∀ k, acc[k]? = some 1 → acc[k + 1]? ≠ some 6) ∧
  (acc.getLast? = some 1 → l.head? ≠ some 6)

/-- The two value kinds a schema entry can declare: Python `int`
(one byte) or Python `float` (four bytes, little-endian IEEE-754). -/
inductive FieldType where
  | tint
  | tfloat
deriving DecidableEq

/-- One entry of a decode schema (`dataStruct`): optional byte offset
(`"index"`), optional value kind (`"type"`), and the optional enum
mapping (`"values"`), empty when the entry declares none. -/
structure FieldSpec where
  index : Option Nat
  type : Option FieldType
  values : List (Nat × String)
deriving DecidableEq

/-- A decoded Python value: a plain integer, a float represented by its
32-bit IEEE-754 bit pattern as assembled from the payload bytes, or a
string (only ever produced by an enum mapping). -/
inductive PyVal where
  | vint (n : Nat)
  | vfloat (bits : Nat)
  | vstr (s : String)
deriving DecidableEq

/-- The Python exceptions relevant to the embedded code paths. -/
inductive PyExc where
  | valueError
  | indexError
  | structError
  | keyError
  | noResponseError
deriving DecidableEq

/-- Little-endian word assembled from a byte list, used to represent the
bit pattern handed to `struct.unpack` for float entries. -/
def le32 (l : List Nat) : Nat :=
  l.foldr (fun b acc => b + 256 * acc) 0

/-- `bytes.fromhex` on a hex-digit list: pairs of digits become bytes;
an odd number of digits raises `ValueError`. -/
def fromHex : List Nat → Except PyExc (List Nat)
  | [] => .ok []
  | [_] => .error .valueError
  | a :: b :: rest => (fromHex rest).map (fun bs => (16 * a + b) :: bs)

/-- `utils.extract_data` after `bytes.fromhex`: entries lacking the
`"index"` or `"type"` field are skipped; an `int` entry reads the one
byte at its offset (`IndexError` when past the end); a `float` entry
unpacks the four bytes at its offset little-endian (`struct.error` when
the slice is shorter than four bytes). The enum `"values"` mapping is
not consulted. -/
def extractFromBytes (db : List Nat) : List (String × FieldSpec) → Except PyExc (List (String × PyVal))
  | [] => .ok []
  | (k, sp) :: rest =>
    match sp.index, sp.type with
    | some idx, some FieldType.tint =>
      if idx < db.length then
        (extractFromBytes db rest).map (fun m => (k, PyVal.vint (db.getD idx 0)) :: m)
      else .error .indexError
    | some idx, some FieldType.tfloat =>
      if ((db.drop idx).take 4).length = 4 then
        (extractFromBytes db rest).map
          (fun m => (k, PyVal.vfloat (le32 ((db.drop idx).take 4))) :: m)
      else .error .structError
    | _, _ => extractFromBytes db rest

/-- `utils.extract_data` on the hex string handed in by the callers:
`bytes.fromhex` then the per-entry reads. -/
def extract_data (hx : List Nat) (schema : List (String × FieldSpec)) :
    Except PyExc (List (String × PyVal)) :=
  (fromHex hx).bind (fun db => extractFromBytes db schema)

/-- `EcoMAXAPI.extract_data` (the `api.py` variant): `"type"` and
`"index"` are accessed directly, so a missing field raises `KeyError`
instead of skipping the entry; otherwise the reads are identical. -/
def apiExtractBytes (db : List Nat) : List (String × FieldSpec) → Except PyExc (List (String × PyVal))
  | [] => .ok []
  | (k, sp) :: rest =>
    match sp.type with
    | none => .error .keyError
    | some FieldType.tint =>
      match sp.index with
      | none => .error .keyError
      | some idx =>
        if idx < db.length then
          (apiExtractBytes db rest).map (fun m => (k, PyVal.vint (db.getD idx 0)) :: m)
        else .error .indexError
    | some FieldType.tfloat =>
      match sp.index with
      | none => .error .keyError
      | some idx =>
        if ((db.drop idx).take 4).length = 4 then
          (apiExtractBytes db rest).map
            (fun m => (k, PyVal.vfloat (le32 ((db.drop idx).take 4))) :: m)
        else .error .structError

/-- `EcoMAXAPI.extract_data` on the response hex string. -/
def apiExtract (hx : List Nat) (schema : List (String × FieldSpec)) :
    Except PyExc (List (String × PyVal)) :=
  (fromHex hx).bind (fun db => apiExtractBytes db schema)

/-- The `THERMOSTAT` schema of `api/parameters.py` (identical in
`parameters.py`): byte offsets, value kinds and the MODE enum. -/
def THERMOSTAT : List (String × FieldSpec) :=
  [("MODE", ⟨some 29, some FieldType.tint,
     [(0, "Auto Jour"), (1, "Nuit"), (2, "Jour"), (3, "Exterieur"),
      (4, "Aération"), (5, "Fête"), (6, "Vacances"), (7, "Hors-gel")]⟩),
   ("AUTO", ⟨some 14, some FieldType.tint, []⟩),
   ("TEMPERATURE", ⟨some 31, some FieldType.tfloat, []⟩),
   ("JOUR", ⟨some 41, some FieldType.tfloat, []⟩),
   ("NUIT", ⟨some 46, some FieldType.tfloat, []⟩),
   ("ACTUELLE", ⟨some 36, some FieldType.tfloat, []⟩),
   ("HEATING", ⟨some 27, some FieldType.tint, []⟩)]

/-- The `ECOMAX` broadcast schema of `api/parameters.py`. -/
def ECOMAX : List (String × FieldSpec) :=
  [("SOURCE_PRINCIPALE", ⟨some 164, some FieldType.tfloat, []⟩),
   ("DEPART_RADIATEUR", ⟨some 169, some FieldType.tfloat, []⟩),
   ("ECS", ⟨some 179, some FieldType.tfloat, []⟩),
   ("BALLON_TAMPON", ⟨some 189, some FieldType.tfloat, []⟩),
   ("TEMPERATURE_EXTERIEUR", ⟨some 194, some FieldType.tfloat, []⟩)]

/-- An entry is decoded exactly when it declares both an `"index"` and a
`"type"` field. -/
def entryKept (e : String × FieldSpec) : Bool :=
  e.2.index.isSome && e.2.type.isSome

/-- An entry's declared read fits inside the byte buffer. Entries that
are skipped impose no constraint. -/
def entryInBounds (db : List Nat) (e : String × FieldSpec) : Bool :=
  match e.2.index, e.2.type with
  | some idx, some FieldType.tint => decide (idx < db.length)
  | some idx, some FieldType.tfloat => decide (idx + 4 ≤ db.length)
  | _, _ => true

/-- The value a kept entry reads from the buffer: the single byte at the
declared offset for `int`, the little-endian 32-bit word of the four
bytes at the declared offset for `float`. Offsets count from the start
of the buffer that is passed in. -/
def readValue (db : List Nat) (idx : Nat) : FieldType → PyVal
  | FieldType.tint => PyVal.vint (db.getD idx 0)
  | FieldType.tfloat => PyVal.vfloat (le32 ((db.drop idx).take 4))

/-- Declared read width of a value kind: one byte for `int`, four bytes
for `float`. -/
def typeWidth : FieldType → Nat
  | FieldType.tint => 1
  | FieldType.tfloat => 4

/-- A 60-byte thermostat payload whose MODE byte (offset 29) is 2 and
whose other bytes are zero. -/
def demoThermoPayload : List Nat :=
  List.replicate 29 0 ++ 2 :: List.replicate 30 0

/-- All enum mappings removed from a schema; the entries' offsets and
kinds are untouched. -/
def stripValues (schema : List (String × FieldSpec)) : List (String × FieldSpec) :=
  schema.map (fun e => (e.1, ⟨e.2.index, e.2.type, []⟩))

/-- Hex digits of a byte list, as produced by `bytes.hex()`. -/
def hexOfBytes (bs : List Nat) : List Nat :=
  bs.flatMap (fun b => [b / 16, b % 16])

/-- The data payload section of a full frame according to the spec's
wire layout: the bytes after the 8-byte header (start byte, two length
bytes, two source bytes, two destination bytes, function code) and
before the two CRC bytes and the end byte. -/
def payloadSection (frame : List Nat) : List Nat :=
  (frame.drop 8).take (frame.length - 11)

/-- Decode with offsets taken relative to the payload section, following
the spec's words; used only to compare against the code's behaviour. -/
def decode_payload_relative (frame : List Nat) (schema : List (String × FieldSpec)) :
    Except PyExc (List (String × PyVal)) :=
  extractFromBytes (payloadSection frame) schema

/-- A built frame with payload 50,51,52,53,54 and a one-entry schema
reading one byte at offset 1. -/
def demoFrame6 : List Nat :=
  (buildFrame 1 0 100 0 64 [50, 51, 52, 53, 54]).getD []

def schemaX : List (String × FieldSpec) :=
  [("X", ⟨some 1, some FieldType.tint, []⟩)]

/-- Result of one receive call on the blocking socket of `api.py`:
either `socket.timeout` or the received data as a hex-digit string. -/
inductive Recv where
  | rtimeout
  | rdata (hx : List Nat)

/-- Outcome of a Python call: a normal return carrying a value, or a
raised exception. -/
inductive POutcome (α : Type) where
  | ret (a : α)
  | exc (e : PyExc)
deriving DecidableEq

/-- The digit sequence `pat` occurs at the start of `s`. -/
def beginsWith : List Nat → List Nat → Bool
  | [], _ => true
  | _ :: _, [] => false
  | a :: ps, b :: ss => a == b && beginsWith ps ss

/-- Python's `pat in s` substring test on digit lists. -/
def containsSeq (pat : List Nat) : List Nat → Bool
  | [] => pat.isEmpty
  | b :: rest => beginsWith pat (b :: rest) || containsSeq pat rest

/-- The candidate scan of `EcoMAXAPI.request`: when an ack flag is
supplied, skip any response shorter than 16 hex digits or whose digits
14..15 differ from the flag; return the first remaining response that
contains the marker. -/
def findMatch (marker : List Nat) (ack : Option (List Nat)) : List (List Nat) → Option (List Nat)
  | [] => none
  | r :: rest =>
    match ack with
    | some a =>
      if r.length < 16 ∨ ¬ (r.drop 14).take 2 = a then findMatch marker ack rest
      else if containsSeq marker r then some r
      else findMatch marker ack rest
    | none =>
      if containsSeq marker r then some r
      else findMatch marker ack rest

/-- The retry loop of `EcoMAXAPI.request` over the remaining attempt
budget: every iteration sends the frame once; a timeout or a batch with
no passing candidate consumes one attempt. On a match the response is
decoded with the api-variant extractor, whose exception propagates. The
second component counts the sends performed. -/
def apiRequestAux (recv : Nat → Recv) (schema : List (String × FieldSpec))
    (marker : List Nat) (ack : Option (List Nat)) :
    Nat → Nat → POutcome (Option (List (String × PyVal))) × Nat
  | _, 0 => (.ret none, 0)
  | attempt, rem + 1 =>
    match recv attempt with
    | .rtimeout =>
      let r := apiRequestAux recv schema marker ack (attempt + 1) rem
      (r.1, r.2 + 1)
    | .rdata hx =>
      match findMatch marker ack (splitFrames hx) with
      | some resp =>
        match apiExtract resp schema with
        | .ok v => (.ret (some v), 1)
        | .error e => (.exc e, 1)
      | none =>
        let r := apiRequestAux recv schema marker ack (attempt + 1) rem
        (r.1, r.2 + 1)

/-- `EcoMAXAPI.request`: hardcoded budget of 3 attempts; exhaustion
returns `None` normally rather than raising. -/
def apiRequest (recv : Nat → Recv) (schema : List (String × FieldSpec))
    (marker : List Nat) (ack : Option (List Nat)) :
    POutcome (Option (List (String × PyVal))) × Nat :=
  apiRequestAux recv schema marker ack 0 3

/-- The per-response acknowledgement test of `EcoMaxClient.async_send`:
non-empty response of at least 16 hex digits whose digits 14..15 equal
the ack flag. -/
def sendAckCheck (r : List Nat) (ack : List Nat) : Bool :=
  (!r.isEmpty) && (decide (16 ≤ r.length)) && ((r.drop 14).take 2 == ack)

/-- The retry loop of `EcoMaxClient.async_send`: one send per
iteration; stops early when the acknowledgement test passes. -/
def asyncSendAux (recv : Nat → List Nat) (ack : List Nat) : Nat → Nat → POutcome Unit × Nat
  | _, 0 => (.ret (), 0)
  | attempt, rem + 1 =>
    if sendAckCheck (recv attempt) ack then (.ret (), 1)
    else
      let r := asyncSendAux recv ack (attempt + 1) rem
      (r.1, r.2 + 1)

/-- `EcoMaxClient.async_send`: budget of 10 attempts; returns normally
whether or not the acknowledgement was ever seen. -/
def asyncSend (recv : Nat → List Nat) (ack : List Nat) : POutcome Unit × Nat :=
  asyncSendAux recv ack 0 10

/-- The per-response acknowledgement test of `Communication.send`:
non-empty response of at least 14 hex digits whose digits 12..13 equal
the ack flag. -/
def commSendCheck (r : List Nat) (ack : List Nat) : Bool :=
  (!r.isEmpty) && (decide (14 ≤ r.length)) && ((r.drop 12).take 2 == ack)

/-- The retry loop of `Communication.send`: one send per iteration;
stops after an acknowledged response or after the budget. -/
def commSendAux (recv : Nat → List Nat) (ack : List Nat) : Nat → Nat → POutcome Unit × Nat
  | _, 0 => (.ret (), 0)
  | attempt, rem + 1 =>
    if commSendCheck (recv attempt) ack then (.ret (), 1)
    else
      let r := commSendAux recv ack (attempt + 1) rem
      (r.1, r.2 + 1)

/-- `Communication.send`: budget of 15 attempts; returns normally in
all cases. -/
def commSend (recv : Nat → List Nat) (ack : List Nat) : POutcome Unit × Nat :=
  commSendAux recv ack 0 15

/-- One attempt of `EcoMAXAPI.request` yields no match: the receive
either times out or its split has no candidate passing the filters. -/
def attemptFails (recv : Nat → Recv) (marker : List Nat) (ack : Option (List Nat))
    (k : Nat) : Prop :=
  match recv k with
  | .rtimeout => True
  | .rdata hx => findMatch marker ack (splitFrames hx) = none

/-- A 16-digit response whose digits 12..13 spell a9 and whose digits
14..15 spell c0. -/
def demoResp : List Nat :=
  List.replicate 12 0 ++ [10, 9, 12, 0]

/-- One entry of a parameter table: action, decode schema, marker hex
string, optional expected frame length in bytes, optional fixed
addresses. -/
structure ParamInfo where
  action : String
  dataStruct : List (String × FieldSpec)
  dataToSearch : Option (List Nat)
  length : Option Nat
  da : Option (List Nat)
  sa : Option (List Nat)

/-- The `dataToSearch` marker of `GET_THERMOSTAT`
("265535445525f78343") as hex digits. -/
def thermoMarker : List Nat :=
  [2, 6, 5, 5, 3, 5, 4, 4, 5, 5, 2, 5, 15, 7, 8, 3, 4, 3]

/-- The `dataToSearch` marker of `GET_DATAS`
("3130303538343230303400") as hex digits. -/
def datasMarker : List Nat :=
  [3, 1, 3, 0, 3, 0, 3, 5, 3, 8, 3, 4, 3, 2, 3, 0, 3, 0, 3, 4, 0, 0]

/-- The `PARAMETER` table of `api/parameters.py`: both entries declare a
`length`. -/
def API_PARAMETER : List (String × ParamInfo) :=
  [("GET_THERMOSTAT", ⟨"GET", THERMOSTAT, some thermoMarker, some 116, none, none⟩),
   ("GET_DATAS", ⟨"GET", ECOMAX, some datasMarker, some 820,
     some [15, 15, 15, 15], some [0, 1, 0, 0]⟩)]

/-- The `PARAMETER` table of the top-level `parameters.py`:
`GET_THERMOSTAT` declares length 116, `GET_DATAS` declares none. -/
def TOP_PARAMETER : List (String × ParamInfo) :=
  [("GET_THERMOSTAT", ⟨"GET", THERMOSTAT, some thermoMarker, some 116, none, none⟩),
   ("GET_DATAS", ⟨"GET", ECOMAX, some datasMarker, none,
     some [15, 15, 15, 15], some [0, 1, 0, 0]⟩)]

/-- The per-candidate filter of `EcoMaxClient.listen_frame`: when an
expected hex length is known, candidates of a different hex length are
rejected; then, when a non-empty marker is declared, candidates not
containing it are rejected. -/
def listenKeep (ehl : Option Nat) (m : Option (List Nat)) (r : List Nat) : Bool :=
  (match ehl with
   | none => true
   | some n => decide (r.length = n)) &&
  (match m with
   | none => true
   | some pat => pat.isEmpty || containsSeq pat r)

/-- The read loop of `EcoMaxClient.listen_frame`: no send is ever
performed (the send counter stays 0); the first candidate passing the
filter is decoded with `utils.extract_data`, whose exception
propagates. -/
def clientListenAux (recv : Nat → List Nat) (ds : List (String × FieldSpec))
    (m : Option (List Nat)) (ehl : Option Nat) :
    Nat → Nat → POutcome (Option (List (String × PyVal))) × Nat
  | _, 0 => (.ret none, 0)
  | attempt, rem + 1 =>
    match (splitFrames (recv attempt)).find? (listenKeep ehl m) with
    | some r =>
      match extract_data r ds with
      | .ok v => (.ret (some v), 0)
      | .error e => (.exc e, 0)
    | none => clientListenAux recv ds m ehl (attempt + 1) rem

/-- `EcoMaxClient.listen_frame` on a parameter entry: passive, up to 100
read attempts, expected hex length = twice the declared byte length. -/
def clientListen (recv : Nat → List Nat) (info : ParamInfo) :
    POutcome (Option (List (String × PyVal))) × Nat :=
  clientListenAux recv info.dataStruct info.dataToSearch
    (info.length.map (fun n => n * 2)) 0 100

/-- The per-candidate filter of `EcoMAXAPI.listen_frame`: hex length
exactly 820 (hardcoded), then the marker. -/
def apiListenKeep (m : List Nat) (r : List Nat) : Bool :=
  decide (r.length = 820) && containsSeq m r

/-- The read loop of `EcoMAXAPI.listen_frame`: passive; a timeout
consumes one attempt; the first candidate passing the hardcoded filter
is decoded with the api-variant extractor. -/
def apiListenAux (recv : Nat → Recv) (ds : List (String × FieldSpec)) (m : List Nat) :
    Nat → Nat → POutcome (Option (List (String × PyVal))) × Nat
  | _, 0 => (.ret none, 0)
  | attempt, rem + 1 =>
    match recv attempt with
    | .rtimeout => apiListenAux recv ds m (attempt + 1) rem
    | .rdata hx =>
      match (splitFrames hx).find? (apiListenKeep m) with
      | some r =>
        match apiExtract r ds with
        | .ok v => (.ret (some v), 0)
        | .error e => (.exc e, 0)
      | none => apiListenAux recv ds m (attempt + 1) rem

/-- `EcoMAXAPI.listen_frame`: looks the parameter up in the top-level
table (unknown parameters return `None`), then runs up to 100 read
attempts. -/
def apiListen (recv : Nat → Recv) (param : String) :
    POutcome (Option (List (String × PyVal))) × Nat :=
  match TOP_PARAMETER.lookup param with
  | none => (.ret none, 0)
  | some info => apiListenAux recv info.dataStruct (info.dataToSearch.getD []) 0 100

/-- An 820-hex-digit (410-byte) candidate frame carrying the thermostat
marker right after its start pair. -/
def bigFrameHex : List Nat :=
  [6, 8] ++ thermoMarker ++ List.replicate 798 0 ++ [1, 6]

/-- Session state of a transport owner (`EcoMaxClient` / `EcoMAXAPI`):
the optional live socket handle, a counter supplying fresh handles, and
the log of handles already closed. -/
structure SessState where
  handle : Option Nat
  nextId : Nat
  closed : List Nat
deriving DecidableEq

/-- `async_connect` / `connect`: a no-op when a socket is already held,
otherwise a fresh socket is created and stored. -/
def connectS (s : SessState) : SessState :=
  match s.handle with
  | some _ => s
  | none => { handle := some s.nextId, nextId := s.nextId + 1, closed := s.closed }

/-- `async_disconnect` / `close`: closes and drops the held socket; a
no-op when none is held. -/
def closeS (s : SessState) : SessState :=
  match s.handle with
  | some h => { handle := none, nextId := s.nextId, closed := s.closed ++ [h] }
  | none => s

/-- Dropping the length of the left part of an append leaves the right
part; stated with an arbitrary count equal to that length. -/
theorem dropAppend (l1 l2 : List Nat) (n : Nat) (h : l1.length = n) :
    (l1 ++ l2).drop n = l2 := by
  subst h
  exact List.drop_left l1 l2

/-- Taking the length of the left part of an append yields the left
part; stated with an arbitrary count equal to that length. -/
theorem takeAppend (l1 l2 : List Nat) (n : Nat) (h : l1.length = n) :
    (l1 ++ l2).take n = l1 := by
  subst h
  exact List.take_left l1 l2

/-- C1: every frame built by `Trame.build` starts with 0x68, ends with
0x16, carries just before the end byte the big-endian CRC-16/XModem of
all bytes between the start byte and the CRC, and its 2-byte
little-endian length field (frame bytes 1 and 2) decodes to
2 + 2 + 1 + payload length. -/
theorem build_frame_wellformed (sa0 sa1 da0 da1 f : Nat) (data : List Nat)
    (frame : List Nat) (h : buildFrame sa0 sa1 da0 da1 f data = some frame) :
    frame.take 1 = [0x68] ∧
    frame.drop (frame.length - 1) = [0x16] ∧
    frame.drop (frame.length - 3) =
      [calculate_crc ((frame.drop 1).take (frame.length - 4)) / 256,
       calculate_crc ((frame.drop 1).take (frame.length - 4)) % 256, 0x16] ∧
    frame.getD 1 0 + 256 * frame.getD 2 0 = 2 + 2 + 1 + data.length := by
  unfold buildFrame int16le at h
  by_cases hv : 2 + 2 + 1 + data.length ≤ 32767
  · simp only [hv, if_pos] at h
    set n := data.length with hn
    set mid : List Nat :=
      [(2 + 2 + 1 + n) % 256, (2 + 2 + 1 + n) / 256] ++ [sa0, sa1, da0, da1, f] ++ data
      with hmid
    set crc := calculate_crc mid with hcrc
    have hframe : frame = 0x68 :: (mid ++ [crc / 256, crc % 256, 0x16]) :=
      (Option.some.inj h).symm
    have hmidlen : mid.length = n + 7 := by
      simp only [hmid, List.length_append, List.length_cons, List.length_nil]
      omega
    refine ⟨?_, ?_, ?_, ?_⟩
    · simp [hframe]
    · rw [hframe]
      have e1 : (0x68 : Nat) :: (mid ++ [crc / 256, crc % 256, 0x16]) =
          (0x68 :: (mid ++ [crc / 256, crc % 256])) ++ [0x16] := by
        simp
      rw [e1]
      refine dropAppend _ _ _ ?_
      simp only [List.length_cons, List.length_append, List.length_nil]
      omega
    · have hd1 : frame.drop 1 = mid ++ [crc / 256, crc % 256, 0x16] := by
        rw [hframe]
        rfl
      have hflen : frame.length = n + 11 := by
        rw [hframe]
        simp only [List.length_cons, List.length_append, List.length_nil]
        omega
      have hmid2 : (frame.drop 1).take (frame.length - 4) = mid := by
        rw [hd1, hflen]
        exact takeAppend _ _ _ (by omega)
      rw [hmid2, ← hcrc, hframe]
      have e2 : (0x68 : Nat) :: (mid ++ [crc / 256, crc % 256, 0x16]) =
          (0x68 :: mid) ++ [crc / 256, crc % 256, 0x16] := by
        simp
      rw [e2]
      have e3 : (0x68 :: mid).length = n + 11 - 3 := by
        simp only [List.length_cons]
        omega
      have e4 : ((0x68 :: mid) ++ [crc / 256, crc % 256, 0x16]).length = n + 11 := by
        simp only [List.length_append, List.length_cons, List.length_nil]
        omega
      rw [e4]
      exact dropAppend _ _ _ e3
    · have h1 : frame.getD 1 0 = (2 + 2 + 1 + n) % 256 := by
        rw [hframe, hmid]
        simp [List.getD]
      have h2 : frame.getD 2 0 = (2 + 2 + 1 + n) / 256 := by
        rw [hframe, hmid]
        simp [List.getD]
      rw [h1, h2]
      have := Nat.mod_add_div (2 + 2 + 1 + n) 256
      omega
  · simp [hv] at h

theorem build_frame_wellformed_witness :
    demoFrame.take 1 = [0x68] ∧
    demoFrame.drop (demoFrame.length - 1) = [0x16] ∧
    demoFrame.drop (demoFrame.length - 3) =
      [calculate_crc ((demoFrame.drop 1).take (demoFrame.length - 4)) / 256,
       calculate_crc ((demoFrame.drop 1).take (demoFrame.length - 4)) % 256, 0x16] ∧
    demoFrame.getD 1 0 + 256 * demoFrame.getD 2 0 = 2 + 2 + 1 + [0x64, 0x78, 0x00].length :=
  build_frame_wellformed 0x01 0x00 0x64 0x00 0x40 [0x64, 0x78, 0x00] demoFrame (by rfl)

example : splitFrames [6, 8, 1, 6] = [[6, 8, 1, 6]] := by decide

example : splitFrames [0, 6, 8, 2, 1, 6, 9, 6, 8, 1, 6] =
    [[6, 8, 2, 1, 6], [6, 8, 1, 6]] := by decide

example : splitFrames [6, 8, 6, 8, 1, 6] = [[6, 8, 6, 8, 1, 6]] := by decide

example : splitFrames [0, 6, 8, 1, 1, 6] = [[6, 8, 1, 1, 6]] := by decide

example : splitFrames [6, 8, 2, 2] = [] := by decide

example : splitFrames [1, 6, 6, 8] = [] := by decide

/-- Closing an open candidate with the digit pair 1,6 yields a good
candidate: the closing pair is at the end and is the first 1,6 pair. -/
theorem goodCandidate_append (acc : List Nat) (h0 : acc[0]? = some 6)
    (h1 : acc[1]? = some 8)
    (hno : ∀ k, acc[k]? = some 1 → acc[k + 1]? ≠ some 6) :
    GoodCandidate (acc ++ [1, 6]) := by
  have hm : 1 < acc.length := (List.getElem?_eq_some.mp h1).1
  have hlen : (acc ++ [1, 6]).length = acc.length + 2 := by
    simp [List.length_append]
  refine ⟨?_, ?_, ?_, ?_, ?_⟩
  · rw [List.getElem?_append, if_pos (by omega)]
    exact h0
  · rw [List.getElem?_append, if_pos (by omega)]
    exact h1
  · rw [hlen]
    have e : acc.length + 2 - 2 = acc.length := by omega
    rw [e, List.getElem?_append, if_neg (by omega)]
    simp
  · rw [hlen]
    have e : acc.length + 2 - 1 = acc.length + 1 := by omega
    rw [e, List.getElem?_append, if_neg (by omega)]
    have e2 : acc.length + 1 - acc.length = 1 := by omega
    rw [e2]
    simp
  · intro k hk1 hk6
    rw [hlen]
    by_cases hlt : k + 1 < acc.length
    · exfalso
      rw [List.getElem?_append, if_pos (by omega)] at hk1
      rw [List.getElem?_append, if_pos hlt] at hk6
      exact hno k hk1 hk6
    · by_cases heq : k + 1 = acc.length
      · exfalso
        rw [List.getElem?_append, if_neg (by omega)] at hk6
        have e : k + 1 - acc.length = 0 := by omega
        rw [e] at hk6
        simp at hk6
      · by_cases heq2 : k = acc.length
        · omega
        · exfalso
          rw [List.getElem?_append, if_neg (by omega)] at hk1
          by_cases heq3 : k = acc.length + 1
          · have e : k - acc.length = 1 := by omega
            rw [e] at hk1
            simp at hk1
          · have hn : ([1, 6] : List Nat)[k - acc.length]? = none :=
              List.getElem?_eq_none (by
                simp only [List.length_cons, List.length_nil]
                omega)
            rw [hn] at hk1
            exact Option.noConfusion hk1

/-- Every candidate produced by the scan from a state satisfying the
open-candidate invariant is a good candidate. -/
theorem scanFrames_good :
    ∀ (l : List Nat) (st : Option (List Nat)),
    (∀ acc, st = some acc → OpenScan l acc) →
    ∀ c ∈ scanFrames l st, GoodCandidate c := by
  intro l st
  induction l, st using scanFrames.induct with
  | case1 x =>
    intro _ c hc
    simp [scanFrames] at hc
  | case2 hd x =>
    intro _ c hc
    simp [scanFrames] at hc
  | case3 a b rest hab ih =>
    intro _ c hc
    simp only [scanFrames, if_pos hab] at hc
    refine ih ?_ c hc
    intro acc h
    have hacc : acc = [6, 8] := (Option.some.inj h).symm
    subst hacc
    refine ⟨by simp, by simp, ?_, ?_⟩
    · intro k hk
      rcases k with _ | _ | k
      · simp at hk
      · simp at hk
      · simp at hk
    · intro hlast
      exact absurd hlast (by decide)
  | case4 a b rest hab ih =>
    intro _ c hc
    simp only [scanFrames, if_neg hab] at hc
    exact ih (fun acc h => nomatch h) c hc
  | case5 a b rest acc hab ih =>
    intro hinv c hc
    obtain ⟨h0, h1, hno, _⟩ := hinv acc rfl
    simp only [scanFrames, if_pos hab] at hc
    rcases List.mem_cons.mp hc with hc | hc
    · subst hc
      exact goodCandidate_append acc h0 h1 hno
    · exact ih (fun acc' h => nomatch h) c hc
  | case6 a b rest acc hab ih =>
    intro hinv c hc
    obtain ⟨h0, h1, hno, hbd⟩ := hinv acc rfl
    simp only [scanFrames, if_neg hab] at hc
    refine ih ?_ c hc
    intro acc' h
    have hacc : acc' = acc ++ [a] := (Option.some.inj h).symm
    subst hacc
    have hm : 1 < acc.length := (List.getElem?_eq_some.mp h1).1
    refine ⟨?_, ?_, ?_, ?_⟩
    · rw [List.getElem?_append, if_pos (by omega)]
      exact h0
    · rw [List.getElem?_append, if_pos (by omega)]
      exact h1
    · intro k hk1 hk6
      by_cases hlt : k + 1 < acc.length
      · rw [List.getElem?_append, if_pos (by omega)] at hk1
        rw [List.getElem?_append, if_pos hlt] at hk6
        exact hno k hk1 hk6
      · by_cases heq : k + 1 = acc.length
        · rw [List.getElem?_append, if_pos (by omega)] at hk1
          rw [List.getElem?_append, if_neg (by omega)] at hk6
          have e : k + 1 - acc.length = 0 := by omega
          rw [e] at hk6
          have ha6 : a = 6 := by simpa using hk6
          have hlast : acc.getLast? = some 1 := by
            rw [List.getLast?_eq_getElem?]
            have e2 : acc.length - 1 = k := by omega
            rw [e2]
            exact hk1
          exact hbd hlast (by simp [ha6])
        · by_cases heq2 : k = acc.length
          · rw [List.getElem?_append, if_neg (by omega)] at hk6
            have e : k + 1 - acc.length = 1 := by omega
            rw [e] at hk6
            simp at hk6
          · rw [List.getElem?_append, if_neg (by omega)] at hk1
            have hn : ([a] : List Nat)[k - acc.length]? = none :=
              List.getElem?_eq_none (by simp only [List.length_cons, List.length_nil]; omega)
            rw [hn] at hk1
            exact Option.noConfusion hk1
    · intro hlast
      rw [List.getLast?_concat] at hlast
      have ha1 : a = 1 := by simpa using hlast
      intro hhead
      have hb6 : b = 6 := by simpa using hhead
      exact hab ⟨ha1, hb6⟩

/-- When the scan is inside an open candidate and still emits something,
the remaining input holds a closing 1,6 digit pair. -/
theorem scanFrames_some_decomp :
    ∀ (l : List Nat) (st : Option (List Nat)) (acc : List Nat),
    st = some acc → scanFrames l st ≠ [] → ∃ mid q, l = mid ++ [1, 6] ++ q := by
  intro l st
  induction l, st using scanFrames.induct with
  | case1 x =>
    intro acc _ h
    simp [scanFrames] at h
  | case2 hd x =>
    intro acc _ h
    simp [scanFrames] at h
  | case3 a b rest hab ih =>
    intro acc h
    exact absurd h (by simp)
  | case4 a b rest hab ih =>
    intro acc h
    exact absurd h (by simp)
  | case5 a b rest acc0 hab ih =>
    intro acc _ _
    obtain ⟨ha, hb⟩ := hab
    subst ha
    subst hb
    exact ⟨[], rest, rfl⟩
  | case6 a b rest acc0 hab ih =>
    intro acc _ h
    simp only [scanFrames, if_neg hab] at h
    obtain ⟨mid, q, hd⟩ := ih (acc0 ++ [a]) rfl h
    exact ⟨a :: mid, q, by simp [hd]⟩

/-- When the scan from the searching state emits something, the input
holds a 6,8 pair followed later by a 1,6 pair. -/
theorem scanFrames_none_decomp :
    ∀ (l : List Nat) (st : Option (List Nat)),
    st = none → scanFrames l st ≠ [] →
    ∃ p mid q, l = p ++ [6, 8] ++ mid ++ [1, 6] ++ q := by
  intro l st
  induction l, st using scanFrames.induct with
  | case1 x =>
    intro _ h
    simp [scanFrames] at h
  | case2 hd x =>
    intro _ h
    simp [scanFrames] at h
  | case3 a b rest hab ih =>
    intro _ h
    simp only [scanFrames, if_pos hab] at h
    obtain ⟨mid, q, hd⟩ := scanFrames_some_decomp rest (some [6, 8]) [6, 8] rfl h
    obtain ⟨ha, hb⟩ := hab
    subst ha
    subst hb
    exact ⟨[], mid, q, by simp [hd]⟩
  | case4 a b rest hab ih =>
    intro _ h
    simp only [scanFrames, if_neg hab] at h
    obtain ⟨p, mid, q, hd⟩ := ih rfl h
    exact ⟨a :: p, mid, q, by simp [hd]⟩
  | case5 a b rest acc hab ih =>
    intro h
    exact absurd h (by simp)
  | case6 a b rest acc hab ih =>
    intro h
    exact absurd h (by simp)

/-- The concatenation of everything the scan emits is a sublist of the
open candidate followed by the remaining input: candidates are
non-overlapping pieces of the buffer taken in order. -/
theorem scanFrames_flatten_sublist :
    ∀ (l : List Nat) (st : Option (List Nat)),
    (scanFrames l st).flatten.Sublist (st.getD [] ++ l) := by
  intro l st
  induction l, st using scanFrames.induct with
  | case1 x => simp [scanFrames]
  | case2 hd x =>
    simp only [scanFrames, List.flatten_nil]
    exact List.nil_sublist _
  | case3 a b rest hab ih =>
    simp only [scanFrames, if_pos hab]
    obtain ⟨ha, hb⟩ := hab
    subst ha
    subst hb
    simpa using ih
  | case4 a b rest hab ih =>
    simp only [scanFrames, if_neg hab, Option.getD_none, List.nil_append]
    exact List.Sublist.cons a (by simpa using ih)
  | case5 a b rest acc hab ih =>
    simp only [scanFrames, if_pos hab]
    obtain ⟨ha, hb⟩ := hab
    subst ha
    subst hb
    rw [List.flatten_cons]
    have ih2 : (scanFrames rest none).flatten.Sublist rest := by simpa using ih
    have step : ((1 : Nat) :: 6 :: (scanFrames rest none).flatten).Sublist (1 :: 6 :: rest) :=
      List.Sublist.cons₂ 1 (List.Sublist.cons₂ 6 ih2)
    have e : (acc ++ [1, 6]) ++ (scanFrames rest none).flatten =
        acc ++ (1 :: 6 :: (scanFrames rest none).flatten) := by
      simp
    rw [e]
    simpa using List.Sublist.append_left step acc
  | case6 a b rest acc hab ih =>
    simp only [scanFrames, if_neg hab]
    simpa [List.append_assoc] using ih

/-- C2: the frame split returns candidates that begin with the 6,8
marker and end at the first following 1,6 marker (non-greedy); it
returns the empty list when the buffer holds no 6,8 pair followed by a
1,6 pair; the candidates are non-overlapping pieces of the buffer in
order; and the split is a pure function of the buffer, so running it
twice gives the same result. -/
theorem split_frames_spec (s : List Nat) :
    (∀ c ∈ splitFrames s, GoodCandidate c) ∧
    ((¬ ∃ p mid q, s = p ++ [6, 8] ++ mid ++ [1, 6] ++ q) → splitFrames s = []) ∧
    (splitFrames s).flatten.Sublist s ∧
    splitFrames s = splitFrames s := by
  refine ⟨?_, ?_, ?_, rfl⟩
  · exact scanFrames_good s none (fun acc h => nomatch h)
  · intro hno
    by_contra hne
    exact hno (scanFrames_none_decomp s none rfl hne)
  · simpa using scanFrames_flatten_sublist s none

theorem split_frames_spec_witness :
    GoodCandidate [6, 8, 2, 1, 6] ∧ splitFrames [3, 7] = [] :=
  ⟨(split_frames_spec [0, 6, 8, 2, 1, 6]).1 [6, 8, 2, 1, 6] (by decide),
   (split_frames_spec [3, 7]).2.1 (by
     rintro ⟨p, mid, q, h⟩
     have hl := congrArg List.length h
     simp only [List.length_append, List.length_cons, List.length_nil] at hl
     omega)⟩

/-- Functional characterisation of a successful decode: the result lists
exactly the kept entries, in schema order, each paired with the value
read at its declared offset into the buffer. -/
theorem extractFromBytes_ok_eq (db : List Nat) :
    ∀ (schema : List (String × FieldSpec)) (m : List (String × PyVal)),
    extractFromBytes db schema = .ok m →
    m = (schema.filter entryKept).map
      (fun e => (e.1, readValue db (e.2.index.getD 0) (e.2.type.getD FieldType.tint))) := by
  intro schema
  induction schema with
  | nil =>
    intro m h
    simp only [extractFromBytes, Except.ok.injEq] at h
    simp [← h]
  | cons e rest ih =>
    intro m h
    obtain ⟨k, oidx, oty, vals⟩ := e
    rcases oidx with _ | idx
    · rcases oty with _ | t
      · simp only [extractFromBytes] at h
        simpa [List.filter_cons, entryKept] using ih m h
      · simp only [extractFromBytes] at h
        simpa [List.filter_cons, entryKept] using ih m h
    · rcases oty with _ | t
      · simp only [extractFromBytes] at h
        simpa [List.filter_cons, entryKept] using ih m h
      · rcases t with _ | _
        · simp only [extractFromBytes] at h
          by_cases hb : idx < db.length
          · rw [if_pos hb] at h
            rcases hrec : extractFromBytes db rest with e0 | m0
            · rw [hrec] at h
              exact absurd h (by simp [Except.map])
            · rw [hrec] at h
              have hm : m = (k, PyVal.vint (db.getD idx 0)) :: m0 := by
                simpa [Except.map] using h.symm
              subst hm
              simp only [List.filter_cons, entryKept, Option.isSome_some, Bool.and_self,
                List.map_cons]
              rw [ih m0 hrec]
              simp [readValue]
          · rw [if_neg hb] at h
            exact absurd h (by simp)
        · simp only [extractFromBytes] at h
          by_cases hb : ((db.drop idx).take 4).length = 4
          · rw [if_pos hb] at h
            rcases hrec : extractFromBytes db rest with e0 | m0
            · rw [hrec] at h
              exact absurd h (by simp [Except.map])
            · rw [hrec] at h
              have hm : m = (k, PyVal.vfloat (le32 ((db.drop idx).take 4))) :: m0 := by
                simpa [Except.map] using h.symm
              subst hm
              simp only [List.filter_cons, entryKept, Option.isSome_some, Bool.and_self,
                List.map_cons]
              rw [ih m0 hrec]
              simp [readValue]
          · rw [if_neg hb] at h
            exact absurd h (by simp)

/-- A decode succeeds as soon as every entry's declared read fits in the
buffer; skipped entries never make it fail. -/
theorem extractFromBytes_ok_of_inBounds (db : List Nat) :
    ∀ schema : List (String × FieldSpec),
    (∀ e ∈ schema, entryInBounds db e = true) →
    ∃ m, extractFromBytes db schema = .ok m := by
  intro schema
  induction schema with
  | nil => exact fun _ => ⟨[], rfl⟩
  | cons e rest ih =>
    intro h
    obtain ⟨m0, hm0⟩ := ih (fun e' he' => h e' (List.mem_cons_of_mem _ he'))
    obtain ⟨k, oidx, oty, vals⟩ := e
    have hhead := h _ (List.mem_cons_self _ _)
    rcases oidx with _ | idx
    · rcases oty with _ | t
      · exact ⟨m0, by simpa [extractFromBytes] using hm0⟩
      · exact ⟨m0, by simpa [extractFromBytes] using hm0⟩
    · rcases oty with _ | t
      · exact ⟨m0, by simpa [extractFromBytes] using hm0⟩
      · rcases t with _ | _
        · have hb : idx < db.length := by
            simpa [entryInBounds] using hhead
          refine ⟨(k, PyVal.vint (db.getD idx 0)) :: m0, ?_⟩
          simp [extractFromBytes, hb, hm0, Except.map]
        · have hb : idx + 4 ≤ db.length := by
            simpa [entryInBounds] using hhead
          have hlen : ((db.drop idx).take 4).length = 4 := by
            simp only [List.length_take, List.length_drop]
            omega
          refine ⟨(k, PyVal.vfloat (le32 ((db.drop idx).take 4))) :: m0, ?_⟩
          simp [extractFromBytes, hlen, hm0, Except.map]

/-- C7: whenever some schema entry declares an offset whose read window
extends past the end of the buffer, the decode raises (`IndexError` for
a one-byte read past the end, `struct.error` for a short float slice)
instead of returning a value from a truncated read. -/
theorem extract_fails_on_overrun (db : List Nat) (schema : List (String × FieldSpec))
    (k : String) (sp : FieldSpec) (idx : Nat) (t : FieldType)
    (hmem : (k, sp) ∈ schema) (hidx : sp.index = some idx) (htyp : sp.type = some t)
    (hover : db.length < idx + typeWidth t) :
    ∃ e, extractFromBytes db schema = .error e := by
  induction schema with
  | nil => exact absurd hmem (List.not_mem_nil _)
  | cons e rest ih =>
    rcases List.mem_cons.mp hmem with hhd | htl
    · obtain ⟨oidx, oty, vals⟩ := sp
      simp only at hidx htyp
      subst hidx
      subst htyp
      rw [← hhd]
      rcases t with _ | _
      · have hb : ¬ idx < db.length := by
          simp only [typeWidth] at hover
          omega
        exact ⟨.indexError, by simp [extractFromBytes, hb]⟩
      · have hb : ¬ ((db.drop idx).take 4).length = 4 := by
          simp only [List.length_take, List.length_drop]
          simp only [typeWidth] at hover
          omega
        refine ⟨.structError, ?_⟩
        simp only [extractFromBytes]
        rw [if_neg hb]
    · obtain ⟨e0, he0⟩ := ih htl
      obtain ⟨k2, oidx2, oty2, vals2⟩ := e
      rcases oidx2 with _ | idx2
      · rcases oty2 with _ | t2
        · exact ⟨e0, by simpa [extractFromBytes] using he0⟩
        · exact ⟨e0, by simpa [extractFromBytes] using he0⟩
      · rcases oty2 with _ | t2
        · exact ⟨e0, by simpa [extractFromBytes] using he0⟩
        · rcases t2 with _ | _
          · by_cases hb : idx2 < db.length
            · exact ⟨e0, by simp [extractFromBytes, hb, he0, Except.map]⟩
            · exact ⟨.indexError, by simp [extractFromBytes, hb]⟩
          · by_cases hb : ((db.drop idx2).take 4).length = 4
            · refine ⟨e0, ?_⟩
              simp only [extractFromBytes]
              rw [if_pos hb, he0]
              rfl
            · refine ⟨.structError, ?_⟩
              simp only [extractFromBytes]
              rw [if_neg hb]

theorem extract_fails_on_overrun_witness :
    ∃ e, extractFromBytes [] [("X", ⟨some 0, some FieldType.tint, []⟩)] = .error e :=
  extract_fails_on_overrun [] [("X", ⟨some 0, some FieldType.tint, []⟩)]
    "X" ⟨some 0, some FieldType.tint, []⟩ 0 FieldType.tint
    (by simp) rfl rfl (by simp [typeWidth])

/-- C10: the decode helper returns a mapping whose keys are exactly the
keys of the entries declaring both an `"index"` and a `"type"` field;
entries missing either field are skipped silently and never make the
decode fail. -/
theorem extract_keys_are_kept_entries (db : List Nat) (schema : List (String × FieldSpec))
    (h : ∀ e ∈ schema, entryInBounds db e = true) :
    ∃ m, extractFromBytes db schema = .ok m ∧
      m.map Prod.fst = (schema.filter entryKept).map Prod.fst := by
  obtain ⟨m, hm⟩ := extractFromBytes_ok_of_inBounds db schema h
  refine ⟨m, hm, ?_⟩
  rw [extractFromBytes_ok_eq db schema m hm, List.map_map]
  rfl

theorem extract_keys_are_kept_entries_witness :
    ∃ m, extractFromBytes [7]
        [("A", ⟨none, some FieldType.tint, []⟩), ("B", ⟨some 0, some FieldType.tint, []⟩)] = .ok m ∧
      m.map Prod.fst =
        (([("A", (⟨none, some FieldType.tint, []⟩ : FieldSpec)),
           ("B", ⟨some 0, some FieldType.tint, []⟩)]).filter entryKept).map Prod.fst :=
  extract_keys_are_kept_entries [7]
    [("A", ⟨none, some FieldType.tint, []⟩), ("B", ⟨some 0, some FieldType.tint, []⟩)]
    (by decide)

/-- C5 counterexample: the MODE byte 2 is a key of the MODE enum mapping
(it maps to "Jour"), yet the decode returns the raw integer 2 and not
the mapped value. -/
theorem mode_enum_not_applied :
    extractFromBytes demoThermoPayload THERMOSTAT =
      .ok [("MODE", PyVal.vint 2), ("AUTO", PyVal.vint 0),
           ("TEMPERATURE", PyVal.vfloat 0), ("JOUR", PyVal.vfloat 0),
           ("NUIT", PyVal.vfloat 0), ("ACTUELLE", PyVal.vfloat 0),
           ("HEATING", PyVal.vint 0)] ∧
    (THERMOSTAT.lookup "MODE").map (fun sp => sp.values.lookup 2) = some (some "Jour") ∧
    PyVal.vint 2 ≠ PyVal.vstr "Jour" :=
  ⟨rfl, by decide, by decide⟩

/-- C5 amended: the decode never consults the enum mappings — removing
them all changes nothing — and decoding the thermostat MODE byte 2
yields the raw integer 2. -/
theorem extract_ignores_enum_values :
    (∀ (db : List Nat) (schema : List (String × FieldSpec)),
      extractFromBytes db schema = extractFromBytes db (stripValues schema)) ∧
    extractFromBytes demoThermoPayload THERMOSTAT =
      .ok [("MODE", PyVal.vint 2), ("AUTO", PyVal.vint 0),
           ("TEMPERATURE", PyVal.vfloat 0), ("JOUR", PyVal.vfloat 0),
           ("NUIT", PyVal.vfloat 0), ("ACTUELLE", PyVal.vfloat 0),
           ("HEATING", PyVal.vint 0)] := by
  constructor
  · intro db schema
    induction schema with
    | nil => rfl
    | cons e rest ih =>
      obtain ⟨k, oidx, oty, vals⟩ := e
      rcases oidx with _ | idx
      · rcases oty with _ | t
        · simpa [extractFromBytes, stripValues] using ih
        · simpa [extractFromBytes, stripValues] using ih
      · rcases oty with _ | t
        · simpa [extractFromBytes, stripValues] using ih
        · rcases t with _ | _
          · simp [extractFromBytes, stripValues, ih]
          · simp [extractFromBytes, stripValues, ih]
  · rfl

/-- C6 counterexample: decoding the matched frame's hex string (what
`async_request` and `listen_frame` pass to `extract_data`) reads offset
1 from the start of the whole frame — here the low length byte 10 — not
offset 1 of the payload section, which holds 51. -/
theorem decode_offsets_frame_absolute_cex :
    extract_data (hexOfBytes demoFrame6) schemaX = .ok [("X", PyVal.vint 10)] ∧
    decode_payload_relative demoFrame6 schemaX = .ok [("X", PyVal.vint 51)] ∧
    PyVal.vint 10 ≠ PyVal.vint 51 :=
  ⟨rfl, rfl, by decide⟩

/-- C6 amended: on a successful decode every kept entry's value is read
at the entry's declared offset counted from the start of the buffer the
callers pass in — the whole matched frame, not its payload section — one
byte for `int` entries and four little-endian bytes for `float`
entries. -/
theorem extract_reads_frame_absolute (db : List Nat) (schema : List (String × FieldSpec))
    (m : List (String × PyVal)) (h : extractFromBytes db schema = .ok m) :
    m = (schema.filter entryKept).map
      (fun e => (e.1, readValue db (e.2.index.getD 0) (e.2.type.getD FieldType.tint))) :=
  extractFromBytes_ok_eq db schema m h

theorem extract_reads_frame_absolute_witness :
    [("X", PyVal.vint 10)] = (schemaX.filter entryKept).map
      (fun e => (e.1, readValue demoFrame6 (e.2.index.getD 0) (e.2.type.getD FieldType.tint))) :=
  extract_reads_frame_absolute demoFrame6 schemaX [("X", PyVal.vint 10)] rfl

/-- Exhaustion of the `EcoMAXAPI.request` loop: when every attempt
fails, it returns `None` normally, with one send per budgeted attempt. -/
theorem apiRequestAux_exhaust (recv : Nat → Recv) (schema : List (String × FieldSpec))
    (marker : List Nat) (ack : Option (List Nat))
    (h : ∀ k, attemptFails recv marker ack k) :
    ∀ rem attempt, apiRequestAux recv schema marker ack attempt rem = (.ret none, rem) := by
  intro rem
  induction rem with
  | zero => intro attempt; rfl
  | succ rem ih =>
    intro attempt
    simp only [apiRequestAux]
    rcases hr : recv attempt with _ | hx
    · simp [ih]
    · have hk : findMatch marker ack (splitFrames hx) = none := by
        have hk0 := h attempt
        unfold attemptFails at hk0
        rw [hr] at hk0
        exact hk0
      simp [hk, ih]

/-- Exhaustion of the `EcoMaxClient.async_send` loop: when no response
passes the acknowledgement test, it returns normally with one send per
budgeted attempt. -/
theorem asyncSendAux_exhaust (recv : Nat → List Nat) (ack : List Nat)
    (h : ∀ k, sendAckCheck (recv k) ack = false) :
    ∀ rem attempt, asyncSendAux recv ack attempt rem = (.ret (), rem) := by
  intro rem
  induction rem with
  | zero => intro attempt; rfl
  | succ rem ih =>
    intro attempt
    simp [asyncSendAux, h attempt, ih]

/-- Exhaustion of the `Communication.send` loop. -/
theorem commSendAux_exhaust (recv : Nat → List Nat) (ack : List Nat)
    (h : ∀ k, commSendCheck (recv k) ack = false) :
    ∀ rem attempt, commSendAux recv ack attempt rem = (.ret (), rem) := by
  intro rem
  induction rem with
  | zero => intro attempt; rfl
  | succ rem ih =>
    intro attempt
    simp [commSendAux, h attempt, ih]

/-- C3 counterexample: against a transport that always returns an empty
batch, `EcoMAXAPI.request` performs exactly 3 attempts and 3 sends but
then returns `None` normally, and `EcoMaxClient.async_send` returns
normally after its 10 attempts; neither outcome is a raised
`NoResponseError`. -/
theorem request_returns_none_not_error_cex :
    apiRequest (fun _ => Recv.rdata []) THERMOSTAT [2, 6, 5, 5] (some [12, 0]) =
      (POutcome.ret none, 3) ∧
    asyncSend (fun _ => []) [10, 9] = (POutcome.ret (), 10) ∧
    (∀ e : PyExc, POutcome.ret (none : Option (List (String × PyVal))) ≠ POutcome.exc e) ∧
    (∀ e : PyExc, POutcome.ret () ≠ POutcome.exc e) :=
  ⟨rfl, rfl, fun _ h => POutcome.noConfusion h, fun _ h => POutcome.noConfusion h⟩

/-- C3 amended: against a transport that never yields a matching frame,
`EcoMAXAPI.request` (budget hardcoded to 3) returns `None` normally
after exactly 3 attempts and 3 sends, and `EcoMaxClient.async_send`
returns normally after exactly 10 attempts and 10 sends; no exception
is raised in either case. -/
theorem request_exhausts_normally (recv : Nat → Recv) (schema : List (String × FieldSpec))
    (marker : List Nat) (ack : Option (List Nat))
    (h1 : ∀ k, attemptFails recv marker ack k)
    (recv2 : Nat → List Nat) (ack2 : List Nat)
    (h2 : ∀ k, sendAckCheck (recv2 k) ack2 = false) :
    apiRequest recv schema marker ack = (POutcome.ret none, 3) ∧
    asyncSend recv2 ack2 = (POutcome.ret (), 10) :=
  ⟨apiRequestAux_exhaust recv schema marker ack h1 3 0,
   asyncSendAux_exhaust recv2 ack2 h2 10 0⟩

theorem request_exhausts_normally_witness :
    apiRequest (fun _ => Recv.rtimeout) THERMOSTAT [2, 6] (some [12, 0]) =
      (POutcome.ret none, 3) ∧
    asyncSend (fun _ => []) [10, 9] = (POutcome.ret (), 10) :=
  request_exhausts_normally (fun _ => Recv.rtimeout) THERMOSTAT [2, 6] (some [12, 0])
    (fun _ => trivial) (fun _ => []) [10, 9] (fun _ => rfl)

/-- C4 counterexample: the very same response and flag are accepted by
`Communication.send` (which reads hex digits 12..13) on the first
attempt, yet rejected by `EcoMaxClient.async_send` and by the
`EcoMAXAPI.request` candidate scan (which read hex digits 14..15): the
acknowledgement offset is not the same across the operations. -/
theorem ack_offset_not_uniform_cex :
    commSendCheck demoResp [10, 9] = true ∧
    sendAckCheck demoResp [10, 9] = false ∧
    findMatch [] (some [10, 9]) [demoResp] = none ∧
    commSend (fun _ => demoResp) [10, 9] = (POutcome.ret (), 1) ∧
    asyncSend (fun _ => demoResp) [10, 9] = (POutcome.ret (), 10) :=
  ⟨rfl, rfl, rfl, rfl, rfl⟩

/-- C4 amended: each call site reads the acknowledgement pair at its own
fixed offset — hex digits 14..15 in `EcoMAXAPI.request` and
`EcoMaxClient.async_send`, hex digits 12..13 in `Communication.send` —
and, once the length guards hold and the marker is present, a response
is accepted on the first attempt exactly when the pair at that
operation's offset equals the supplied flag. -/
theorem ack_offset_per_operation (r : List Nat) (marker ack : List Nat)
    (h16 : 16 ≤ r.length) (hm : containsSeq marker r = true) :
    (findMatch marker (some ack) [r] = some r ↔ (r.drop 14).take 2 = ack) ∧
    (asyncSend (fun _ => r) ack = (POutcome.ret (), 1) ↔ (r.drop 14).take 2 = ack) ∧
    (commSend (fun _ => r) ack = (POutcome.ret (), 1) ↔ (r.drop 12).take 2 = ack) := by
  have hne : r ≠ [] := by
    intro h0
    rw [h0] at h16
    simp at h16
  have hempty : r.isEmpty = false := by
    rcases r with _ | ⟨x, xs⟩
    · exact absurd rfl hne
    · rfl
  refine ⟨?_, ?_, ?_⟩
  · by_cases hs : (r.drop 14).take 2 = ack
    · rw [findMatch]
      rw [if_neg (by
        push_neg
        exact ⟨by omega, hs⟩)]
      rw [if_pos hm]
      simp [hs]
    · rw [findMatch]
      rw [if_pos (Or.inr hs)]
      simp only [findMatch]
      constructor
      · intro h0
        exact absurd h0 (by simp)
      · intro h0
        exact absurd h0 hs
  · by_cases hs : (r.drop 14).take 2 = ack
    · have hcheck : sendAckCheck r ack = true := by
        simp [sendAckCheck, hempty, h16, hs]
      constructor
      · intro _
        exact hs
      · intro _
        simp [asyncSend, asyncSendAux, hcheck]
    · have hcheck : ∀ k : Nat, sendAckCheck ((fun _ => r) k) ack = false := by
        intro k
        simp [sendAckCheck, hs]
      have hx := asyncSendAux_exhaust (fun _ => r) ack hcheck 10 0
      constructor
      · intro h0
        rw [asyncSend] at h0
        rw [hx] at h0
        have := congrArg Prod.snd h0
        simp at this
      · intro h0
        exact absurd h0 hs
  · by_cases hs : (r.drop 12).take 2 = ack
    · have hcheck : commSendCheck r ack = true := by
        simp [commSendCheck, hempty, hs]
        omega
      constructor
      · intro _
        exact hs
      · intro _
        simp [commSend, commSendAux, hcheck]
    · have hcheck : ∀ k : Nat, commSendCheck ((fun _ => r) k) ack = false := by
        intro k
        simp [commSendCheck, hs]
      have hx := commSendAux_exhaust (fun _ => r) ack hcheck 15 0
      constructor
      · intro h0
        rw [commSend] at h0
        rw [hx] at h0
        have := congrArg Prod.snd h0
        simp at this
      · intro h0
        exact absurd h0 hs

theorem ack_offset_per_operation_witness :
    (findMatch [] (some [12, 0]) [demoResp] = some demoResp ↔
      (demoResp.drop 14).take 2 = [12, 0]) ∧
    (asyncSend (fun _ => demoResp) [12, 0] = (POutcome.ret (), 1) ↔
      (demoResp.drop 14).take 2 = [12, 0]) ∧
    (commSend (fun _ => demoResp) [12, 0] = (POutcome.ret (), 1) ↔
      (demoResp.drop 12).take 2 = [12, 0]) :=
  ack_offset_per_operation demoResp [] [12, 0] (by decide) (by decide)

/-- The client listen loop performs no sends. -/
theorem clientListenAux_sends (recv : Nat → List Nat) (ds : List (String × FieldSpec))
    (m : Option (List Nat)) (ehl : Option Nat) :
    ∀ rem attempt, (clientListenAux recv ds m ehl attempt rem).2 = 0 := by
  intro rem
  induction rem with
  | zero => intro attempt; rfl
  | succ rem ih =>
    intro attempt
    simp only [clientListenAux]
    rcases hf : (splitFrames (recv attempt)).find? (listenKeep ehl m) with _ | r
    · simp only [hf]
      exact ih (attempt + 1)
    · simp only [hf]
      rcases he : extract_data r ds with e | v
      · simp [he]
      · simp [he]

/-- The api listen loop performs no sends. -/
theorem apiListenAux_sends (recv : Nat → Recv) (ds : List (String × FieldSpec))
    (m : List Nat) :
    ∀ rem attempt, (apiListenAux recv ds m attempt rem).2 = 0 := by
  intro rem
  induction rem with
  | zero => intro attempt; rfl
  | succ rem ih =>
    intro attempt
    simp only [apiListenAux]
    rcases hr : recv attempt with _ | hx
    · simp only [hr]
      exact ih (attempt + 1)
    · simp only [hr]
      rcases hf : (splitFrames hx).find? (apiListenKeep m) with _ | r
      · simp only [hf]
        exact ih (attempt + 1)
      · simp only [hf]
        rcases he : apiExtract r ds with e | v
        · simp [he]
        · simp [he]

/-- Scanning with the client filter equals first discarding the
wrong-length candidates and then scanning with the marker filter alone:
the length filter acts before the marker filter. -/
theorem listenKeep_length_first (n : Nat) (m : Option (List Nat)) :
    ∀ frames : List (List Nat),
    frames.find? (listenKeep (some n) m) =
      (frames.filter (fun r => decide (r.length = n))).find? (listenKeep none m) := by
  intro frames
  induction frames with
  | nil => rfl
  | cons r rest ih =>
    by_cases hl : r.length = n
    · have he : listenKeep (some n) m r = listenKeep none m r := by
        simp [listenKeep, hl]
      by_cases hk : listenKeep none m r = true
      · simp [List.find?_cons, List.filter_cons, hl, he, hk]
      · have hk' : listenKeep none m r = false := by
          rcases hb : listenKeep none m r
          · rfl
          · exact absurd hb hk
        simp [List.find?_cons, List.filter_cons, hl, he, hk', ih]
    · have he : listenKeep (some n) m r = false := by
        simp [listenKeep, hl]
      simp [List.find?_cons, List.filter_cons, hl, he, ih]

/-- Scanning with the hardcoded api filter equals first discarding
candidates whose hex length is not 820 and then scanning with the
marker alone. -/
theorem apiListenKeep_length_first (m : List Nat) :
    ∀ frames : List (List Nat),
    frames.find? (apiListenKeep m) =
      (frames.filter (fun r => decide (r.length = 820))).find? (fun r => containsSeq m r) := by
  intro frames
  induction frames with
  | nil => rfl
  | cons r rest ih =>
    by_cases hl : r.length = 820
    · have he : apiListenKeep m r = containsSeq m r := by
        simp [apiListenKeep, hl]
      by_cases hk : containsSeq m r = true
      · simp [List.find?_cons, List.filter_cons, hl, he, hk]
      · have hk' : containsSeq m r = false := by
          rcases hb : containsSeq m r
          · rfl
          · exact absurd hb hk
        simp [List.find?_cons, List.filter_cons, hl, he, hk', ih]
    · have he : apiListenKeep m r = false := by
        simp [apiListenKeep, hl]
      simp [List.find?_cons, List.filter_cons, hl, he, ih]

set_option maxRecDepth 8000 in
/-- C8 counterexample: the thermostat parameter declares expected length
116 bytes, yet `EcoMAXAPI.listen_frame` filters by the hardcoded hex
length 820 (410 bytes): a 410-byte candidate carrying the marker passes
the filter and is decoded even though its byte length differs from the
parameter's declared expected length. -/
theorem listen_length_filter_cex :
    (TOP_PARAMETER.lookup "GET_THERMOSTAT").map ParamInfo.length = some (some 116) ∧
    bigFrameHex.length = 410 * 2 ∧
    (410 : Nat) ≠ 116 ∧
    apiListen (fun _ => Recv.rdata bigFrameHex) "GET_THERMOSTAT" =
      (POutcome.ret (some [("MODE", PyVal.vint 0), ("AUTO", PyVal.vint 0),
        ("TEMPERATURE", PyVal.vfloat 0), ("JOUR", PyVal.vfloat 0),
        ("NUIT", PyVal.vfloat 0), ("ACTUELLE", PyVal.vfloat 0),
        ("HEATING", PyVal.vint 0)]), 0) :=
  ⟨rfl, by decide, by decide, rfl⟩

/-- C8 amended: both listen variants are passive (they never send), and
both apply a length filter before the marker filter; but
`EcoMaxClient.listen_frame` filters by twice the parameter's declared
byte length while `EcoMAXAPI.listen_frame` filters by the hardcoded 820
hex digits regardless of the parameter's declared expected length. -/
theorem listen_passive_and_length_first :
    (∀ (recv : Nat → List Nat) (info : ParamInfo), (clientListen recv info).2 = 0) ∧
    (∀ (recv : Nat → Recv) (param : String), (apiListen recv param).2 = 0) ∧
    (∀ (frames : List (List Nat)) (n : Nat) (m : Option (List Nat)),
      frames.find? (listenKeep (some n) m) =
        (frames.filter (fun r => decide (r.length = n))).find? (listenKeep none m)) ∧
    (∀ (frames : List (List Nat)) (m : List Nat),
      frames.find? (apiListenKeep m) =
        (frames.filter (fun r => decide (r.length = 820))).find? (fun r => containsSeq m r)) := by
  refine ⟨?_, ?_, ?_, ?_⟩
  · intro recv info
    exact clientListenAux_sends recv info.dataStruct info.dataToSearch
      (info.length.map (fun n => n * 2)) 100 0
  · intro recv param
    rw [apiListen]
    rcases hp : TOP_PARAMETER.lookup param with _ | info
    · rfl
    · exact apiListenAux_sends recv info.dataStruct (info.dataToSearch.getD []) 100 0
  · intro frames n m
    exact listenKeep_length_first n m frames
  · intro frames m
    exact apiListenKeep_length_first m frames

/-- C9: opening a session is idempotent — a second open is a no-op, and
opening an already-open session keeps the same transport handle — and
closing is idempotent — closing twice equals closing once (no second
close of the socket happens) and the session ends up closed. -/
theorem session_open_close_idempotent (s : SessState) :
    connectS (connectS s) = connectS s ∧
    (∀ h, s.handle = some h → connectS s = s ∧ (connectS s).handle = some h) ∧
    closeS (closeS s) = closeS s ∧
    (closeS s).handle = none := by
  obtain ⟨oh, nid, cl⟩ := s
  rcases oh with _ | h
  · refine ⟨rfl, ?_, rfl, rfl⟩
    intro h hcontra
    exact absurd hcontra (by simp)
  · exact ⟨rfl, fun h2 hh => ⟨rfl, hh⟩, rfl, rfl⟩

theorem session_open_close_idempotent_witness :
    connectS (connectS ⟨some 5, 6, []⟩) = connectS ⟨some 5, 6, []⟩ ∧
    (connectS ⟨some 5, 6, []⟩ = ⟨some 5, 6, []⟩ ∧
      (connectS ⟨some 5, 6, []⟩).handle = some 5) ∧
    closeS (closeS ⟨some 5, 6, []⟩) = closeS ⟨some 5, 6, []⟩ ∧
    (closeS ⟨some 5, 6, []⟩).handle = none :=
  ⟨(session_open_close_idempotent ⟨some 5, 6, []⟩).1,
   (session_open_close_idempotent ⟨some 5, 6, []⟩).2.1 5 rfl,
   (session_open_close_idempotent ⟨some 5, 6, []⟩).2.2.1,
   (session_open_close_idempotent ⟨some 5, 6, []⟩).2.2.2⟩

end Ecomax
